import Mathlib

/-!
Shallow embedding of the retina_cnn repository: the `RetinaCNN` network of
`backend/main.py`, `backend/app.py` and `backend/train_cnn.py`, the class
registry, the checkpoint loading step, the training pipeline, and the
inference decision policy of the two `/predict` endpoints.  Machine floats
are modelled by exact rationals; the real-valued softmax is modelled over ℝ.
-/

/-! ### Definitions -/

abbrev Tensor1 := List ℚ

abbrev Tensor2 := List (List ℚ)

abbrev Tensor3 := List (List (List ℚ))

abbrev Tensor4 := List (List (List (List ℚ)))

/-- Entry of a 2-d tensor, 0 outside bounds. -/
def at2 (m : Tensor2) (i j : ℕ) : ℚ :=
  (m.getD i []).getD j 0

/-- Entry of a 3-d tensor at possibly negative spatial indices; 0 outside
bounds, which realises the zero padding of `nn.Conv2d(padding=1)`. -/
def at3 (x : Tensor3) (c : ℕ) (i j : ℤ) : ℚ :=
  if 0 ≤ i ∧ 0 ≤ j then ((x.getD c []).getD i.toNat []).getD j.toNat 0 else 0

/-- One output entry of a 3×3 convolution: the kernel `w` (indexed by input
channel, then the two kernel offsets) slid over `x` at centre `(i, j)` with
zero padding 1 and stride 1. -/
def convEntry (w : Tensor3) (x : Tensor3) (i j : ℕ) : ℚ :=
  ((List.range w.length).map (fun ic =>
    ((List.range 3).map (fun ki =>
      ((List.range 3).map (fun kj =>
        at2 (w.getD ic []) ki kj * at3 x ic ((i : ℤ) + ki - 1) ((j : ℤ) + kj - 1))).sum)).sum)).sum

/-- `nn.Conv2d(inC, outC, kernel_size=3, stride=1, padding=1)` applied to a
single image: output channel count is the number of kernels, spatial size is
preserved. -/
def conv2d (w : Tensor4) (b : Tensor1) (x : Tensor3) : Tensor3 :=
  (List.range w.length).map fun oc =>
    (List.range (x.getD 0 []).length).map fun i =>
      (List.range ((x.getD 0 []).getD 0 []).length).map fun j =>
        b.getD oc 0 + convEntry (w.getD oc []) x i j

/-- `F.relu` on a 3-d activation. -/
def relu3 (x : Tensor3) : Tensor3 :=
  x.map (fun ch => ch.map (fun row => row.map (fun v => max v 0)))

/-- `F.relu` on a vector. -/
def relu1 (x : Tensor1) : Tensor1 :=
  x.map (fun v => max v 0)

/-- `nn.MaxPool2d(2, 2)`: each spatial dimension is halved (floor), each
output entry is the maximum of a 2×2 window. -/
def pool2 (x : Tensor3) : Tensor3 :=
  x.map fun ch =>
    (List.range (ch.length / 2)).map fun i =>
      (List.range ((ch.getD 0 []).length / 2)).map fun j =>
        max (max (at2 ch (2 * i) (2 * j)) (at2 ch (2 * i) (2 * j + 1)))
          (max (at2 ch (2 * i + 1) (2 * j)) (at2 ch (2 * i + 1) (2 * j + 1)))

/-- `torch.flatten(x, 1)` on a single image: concatenate channels row-major. -/
def flatten3 (x : Tensor3) : Tensor1 :=
  (x.map List.flatten).flatten

/-- `nn.Linear`: one output per weight row, a dot product plus bias. -/
def linear (w : Tensor2) (b : Tensor1) (x : Tensor1) : Tensor1 :=
  List.zipWith (fun row bi => (List.zipWith (fun a c => a * c) row x).sum + bi) w b

/-- The learnable parameters owned by `RetinaCNN.__init__`. -/
structure RetinaCNNParams where
  conv1w : Tensor4
  conv1b : Tensor1
  conv2w : Tensor4
  conv2b : Tensor1
  conv3w : Tensor4
  conv3b : Tensor1
  fc1w : Tensor2
  fc1b : Tensor1
  fc2w : Tensor2
  fc2b : Tensor1

/-- `RetinaCNN.forward` as called by the two backends after `model.eval()`:
three conv–ReLU–pool blocks, flatten, `fc1` with ReLU, dropout (identity in
eval mode, so omitted), `fc2`. -/
def RetinaCNN.forward (p : RetinaCNNParams) (x : Tensor3) : Tensor1 :=
  let a1 := pool2 (relu3 (conv2d p.conv1w p.conv1b x))
  let a2 := pool2 (relu3 (conv2d p.conv2w p.conv2b a1))
  let a3 := pool2 (relu3 (conv2d p.conv3w p.conv3b a2))
  linear p.fc2w p.fc2b (relu1 (linear p.fc1w p.fc1b (flatten3 a3)))

/-- A 2-d tensor of shape `a × b`. -/
def dims2 (m : Tensor2) (a b : ℕ) : Prop :=
  m.length = a ∧ ∀ r ∈ m, r.length = b

/-- A 4-d tensor of shape `a × b × c × d`. -/
def dims4 (w : Tensor4) (a b c d : ℕ) : Prop :=
  w.length = a ∧ ∀ o ∈ w, o.length = b ∧ ∀ k ∈ o, k.length = c ∧ ∀ r ∈ k, r.length = d

/-- The parameter shapes fixed by `RetinaCNN.__init__(num_classes)`:
`Conv2d(3, 32, 3)`, `Conv2d(32, 64, 3)`, `Conv2d(64, 128, 3)`,
`Linear(128 * 28 * 28, 256)`, `Linear(256, num_classes)`. -/
def RetinaCNN.initShapes (numClasses : ℕ) (p : RetinaCNNParams) : Prop :=
  dims4 p.conv1w 32 3 3 3 ∧ p.conv1b.length = 32 ∧
  dims4 p.conv2w 64 32 3 3 ∧ p.conv2b.length = 64 ∧
  dims4 p.conv3w 128 64 3 3 ∧ p.conv3b.length = 128 ∧
  dims2 p.fc1w 256 (128 * 28 * 28) ∧ p.fc1b.length = 256 ∧
  dims2 p.fc2w numClasses 256 ∧ p.fc2b.length = numClasses

/-- All-zero vector of length `n`. -/
def zeros1 (n : ℕ) : Tensor1 := List.replicate n 0

/-- All-zero matrix. -/
def zeros2 (a b : ℕ) : Tensor2 := List.replicate a (zeros1 b)

/-- All-zero 3-d tensor. -/
def zeros3 (a b c : ℕ) : Tensor3 := List.replicate a (zeros2 b c)

/-- All-zero 4-d tensor. -/
def zeros4 (a b c d : ℕ) : Tensor4 := List.replicate a (zeros3 b c d)

/-- A concrete parameter set with the `__init__` shapes (all weights zero). -/
def zeroParams (n : ℕ) : RetinaCNNParams where
  conv1w := zeros4 32 3 3 3
  conv1b := zeros1 32
  conv2w := zeros4 64 32 3 3
  conv2b := zeros1 64
  conv3w := zeros4 128 64 3 3
  conv3b := zeros1 128
  fc1w := zeros2 256 (128 * 28 * 28)
  fc1b := zeros1 256
  fc2w := zeros2 n 256
  fc2b := zeros1 n

/-- Maximum of a list of rationals (`torch.max` over a probability vector);
0 for the empty list, which the callers never pass. -/
def listMax : List ℚ → ℚ
  | [] => 0
  | [a] => a
  | a :: b :: r => max a (listMax (b :: r))

/-- `probs.argmax().item()`: the index of the first occurrence of the maximum
entry (`torch.argmax` returns the first maximal index). -/
def argmaxIdx : List ℚ → ℕ
  | [] => 0
  | [_] => 0
  | a :: b :: r => if listMax (b :: r) ≤ a then 0 else argmaxIdx (b :: r) + 1

/-- Descending-probability order on class indices, ties broken by ascending
index: the order in which `torch.topk(probs, k)` lists its results. -/
def idxLe (probs : List ℚ) (i j : ℕ) : Bool :=
  decide (probs.getD j 0 < probs.getD i 0 ∨ (probs.getD i 0 = probs.getD j 0 ∧ i ≤ j))

/-- `torch.topk(probs, k)`: the `k` class indices of largest probability, in
descending order of probability (ties listed by ascending index). -/
def topKIdx (probs : List ℚ) (k : ℕ) : List ℕ :=
  ((List.range probs.length).mergeSort (idxLe probs)).take k

/-- The `top_predictions` list of `main.py`, built from
`torch.topk(probs, k=min(3, len(CLASS_NAMES)))`: each top index paired with
its class label and probability. -/
def topKPairs (classNames : List String) (probs : List ℚ) : List (String × ℚ) :=
  (topKIdx probs (min 3 classNames.length)).map
    (fun i => (classNames.getD i "", probs.getD i 0))

/-- Round to the nearest integer, ties to even, as Python `round` does. -/
def roundHalfEven (q : ℚ) : ℤ :=
  if q - ⌊q⌋ < 1 / 2 then ⌊q⌋
  else if 1 / 2 < q - ⌊q⌋ then ⌊q⌋ + 1
  else if ⌊q⌋ % 2 = 0 then ⌊q⌋ else ⌊q⌋ + 1

/-- Python `round(q, n)`. -/
def pyRound (q : ℚ) (n : ℕ) : ℚ :=
  (roundHalfEven (q * 10 ^ n) : ℚ) / 10 ^ n

/-- The fixed `confidence_threshold` of `main.py`. -/
def confidenceThreshold : ℚ := 65 / 100

/-- The explanatory message substituted below the threshold. -/
def uncertainMessage : String :=
  "Image does not appear to contain a recognizable retina pattern."

/-- The message reported at or above the threshold: the label and the
percentage confidence rounded to two decimals. -/
def detectedMessage (label : String) (pct : ℚ) : String :=
  "Detected " ++ label ++ " with " ++ toString pct ++ "% confidence."

/-- The JSON object returned by the `main.py` `/predict` route. -/
structure PredictResult where
  filename : String
  prediction : String
  confidence : ℚ
  topPredictions : List (String × ℚ)
  message : String
  timestamp : String

/-- The decision policy of `main.py` lines 122–149, applied to the softmax
probability vector: arg-max candidate, top-k list, confidence gate at 0.65,
confidence rounded to 4 decimals. -/
def mainPredict (classNames : List String) (probs : List ℚ)
    (filename timestamp : String) : PredictResult :=
  let topIdx := argmaxIdx probs
  let confidence := probs.getD topIdx 0
  let label := classNames.getD topIdx ""
  let topPredictions := topKPairs classNames probs
  if confidence < confidenceThreshold then
    { filename := filename, prediction := "uncertain",
      confidence := pyRound confidence 4, topPredictions := topPredictions,
      message := uncertainMessage, timestamp := timestamp }
  else
    { filename := filename, prediction := label,
      confidence := pyRound confidence 4, topPredictions := topPredictions,
      message := detectedMessage label (pyRound (confidence * 100) 2),
      timestamp := timestamp }

/-- The JSON object returned by the `app.py` `/predict` route: only these
four fields, with no top-k list and no message. -/
structure AppPredictResult where
  filename : String
  prediction : String
  confidence : ℚ
  timestamp : String

/-- The `app.py` `/predict` route, lines 107–126: the arg-max label is always
reported; there is no confidence threshold. -/
def appPredict (classNames : List String) (probs : List ℚ)
    (filename timestamp : String) : AppPredictResult :=
  { filename := filename,
    prediction := classNames.getD (argmaxIdx probs) "",
    confidence := pyRound (probs.getD (argmaxIdx probs) 0) 4,
    timestamp := timestamp }

/-- Lexicographic comparison of labels, as Python `sorted` uses. -/
def strLe (a b : String) : Bool := a ≤ b

/-- The fixed fallback list used when the dataset directory is absent. -/
def defaultClassNames : List String :=
  ["cataract", "diabetic-retinopathy", "glaucoma", "normal"]

/-- `CLASS_NAMES`: when the `retinal-samples` directory exists (`some subdirs`
with its immediate subdirectory names), its subdirectory names sorted; when it
is absent (`none`), the fallback list. -/
def buildClassNames (datasetDir : Option (List String)) : List String :=
  match datasetDir with
  | some subdirs => subdirs.mergeSort strLe
  | none => defaultClassNames

/-- The state-dict shapes of a `RetinaCNN(num_classes)` instance: each layer
name paired with its parameter tensor shape, as `torch.save`/`torch.load`
serialise them. -/
def stateShapes (numClasses : ℕ) : List (String × List ℕ) :=
  [("conv1.weight", [32, 3, 3, 3]), ("conv1.bias", [32]),
   ("conv2.weight", [64, 32, 3, 3]), ("conv2.bias", [64]),
   ("conv3.weight", [128, 64, 3, 3]), ("conv3.bias", [128]),
   ("fc1.weight", [256, 128 * 28 * 28]), ("fc1.bias", [256]),
   ("fc2.weight", [numClasses, 256]), ("fc2.bias", [numClasses])]

/-- The failures `Module.load_state_dict` raises in its default strict mode. -/
inductive LoadError where
  | keyMismatch
  | sizeMismatch
deriving DecidableEq

/-- `model.load_state_dict(state_dict)` with the default `strict=True`: the
checkpoint must carry exactly the model keys, each with exactly the model
shape; any disagreement raises and nothing is copied (no truncation, no
reshape). On success the loaded parameters are exactly the checkpoint. -/
def loadStateDict (modelShapes ckpt : List (String × List ℕ)) :
    Except LoadError (List (String × List ℕ)) :=
  if ckpt.map Prod.fst ≠ modelShapes.map Prod.fst then Except.error LoadError.keyMismatch
  else if ckpt ≠ modelShapes then Except.error LoadError.sizeMismatch
  else Except.ok ckpt

/-- True exactly on the error case of an `Except`. -/
def isErr {ε α : Type} : Except ε α → Bool
  | Except.error _ => true
  | Except.ok _ => false

/-- Startup of `main.py` lines 79–83: build `RetinaCNN(len(CLASS_NAMES))` and
load the checkpoint into it; the service reaches its ready state only when
the load succeeds. -/
def startService (classNames : List String) (ckpt : List (String × List ℕ)) :
    Except LoadError (List (String × List ℕ)) :=
  loadStateDict (stateShapes classNames.length) ckpt

/-- The startup-time failure of the training script: `datasets.ImageFolder`
refuses a dataset directory that yields no sample, before any epoch runs
(the `ConfigurationError` of the design's error taxonomy). -/
inductive TrainError where
  | configurationError
deriving DecidableEq

/-- The samples of an image-folder dataset: the images of each class folder
paired with that folder's class index, folders taken in the given order. -/
def folderSamples : ℕ → List (String × List Tensor3) → List (Tensor3 × ℕ)
  | _, [] => []
  | i, (_, imgs) :: rest => imgs.map (fun t => (t, i)) ++ folderSamples (i + 1) rest

/-- `datasets.ImageFolder(DATA_DIR, transform)`: class folders are sorted
lexicographically and assigned indices in that order; construction fails
when the directory yields no sample at all. -/
def imageFolder (dirs : List (String × List Tensor3)) :
    Except TrainError (List (Tensor3 × ℕ)) :=
  let samples := folderSamples 0 (dirs.mergeSort (fun a b => strLe a.1 b.1))
  if samples.isEmpty then Except.error TrainError.configurationError
  else Except.ok samples

/-- Number of images under the dataset directory. -/
def totalImages (dirs : List (String × List Tensor3)) : ℕ :=
  (dirs.map (fun d => d.2.length)).sum

/-- `DataLoader(dataset, batch_size=n)`: split the (shuffled) samples into
consecutive batches of `n`, the last one possibly shorter. -/
def chunksOf {α : Type} (n : ℕ) (l : List α) : List (List α) :=
  if h : n = 0 ∨ l.isEmpty then []
  else l.take n :: chunksOf n (l.drop n)
termination_by l.length
decreasing_by
  push_neg at h
  have hl : l ≠ [] := by simpa [List.isEmpty_iff] using h.2
  have hp := List.length_pos.2 hl
  simp only [List.length_drop]
  omega

/-- The metrics printed after each epoch of `train_cnn.py`. -/
structure EpochReport where
  loss : ℚ
  accuracy : ℚ

/-- One epoch of the loop of `train_cnn.py` lines 87–105: fold over the
batches, threading the parameters through the per-batch optimizer step
(forward, cross-entropy, backward, Adam update, abstracted as `step`, which
returns the updated parameters, the batch loss and the count of correct
top-1 predictions) while accumulating running loss, correct count and label
count. -/
def runEpoch {P : Type} (step : P → List (Tensor3 × ℕ) → P × ℚ × ℕ)
    (p0 : P) (batches : List (List (Tensor3 × ℕ))) : P × ℚ × ℕ × ℕ :=
  batches.foldl (fun acc batch =>
    let r := step acc.1 batch
    (r.1, acc.2.1 + r.2.1, acc.2.2.1 + r.2.2, acc.2.2.2 + batch.length))
    (p0, 0, 0, 0)

/-- The training pipeline of `train_cnn.py`: dataset construction, then
exactly `epochs` full passes, each reporting mean loss and accuracy
percentage, ending with the final parameters (the persisted checkpoint).
`shuffle` abstracts the per-epoch reshuffling of the DataLoader. -/
def trainPipeline {P : Type} (step : P → List (Tensor3 × ℕ) → P × ℚ × ℕ)
    (shuffle : ℕ → List (Tensor3 × ℕ) → List (Tensor3 × ℕ))
    (dirs : List (String × List Tensor3)) (epochs : ℕ) (p0 : P) :
    Except TrainError (P × List EpochReport) :=
  match imageFolder dirs with
  | Except.error e => Except.error e
  | Except.ok samples =>
    Except.ok ((List.range epochs).foldl (fun st e =>
      let batches := chunksOf 32 (shuffle e samples)
      let r := runEpoch step st.1 batches
      (r.1, st.2 ++ [⟨r.2.1 / batches.length, 100 * r.2.2.1 / r.2.2.2⟩]))
      (p0, []))

/-- `F.softmax` over a logits vector, on the reals. -/
noncomputable def softmax (l : List ℝ) : List ℝ :=
  l.map (fun x => Real.exp x / (l.map Real.exp).sum)

/-- A probability distribution as C9 demands it: every entry in [0, 1] and
the total within 1e-5 of 1. -/
def isProbVec (l : List ℝ) : Prop :=
  (∀ p ∈ l, 0 ≤ p ∧ p ≤ 1) ∧ |l.sum - 1| ≤ 1 / 100000

/-! ### Theorems -/

theorem linear_length (w : Tensor2) (b : Tensor1) (x : Tensor1) :
    (linear w b x).length = min w.length b.length := by
  simp [linear]

theorem zeros2_dims (a b : ℕ) : dims2 (zeros2 a b) a b := by
  refine ⟨by simp [zeros2], fun r hr => ?_⟩
  rw [List.eq_of_mem_replicate hr]
  simp [zeros1]

theorem zeros4_dims (a b c d : ℕ) : dims4 (zeros4 a b c d) a b c d := by
  refine ⟨by simp [zeros4], fun o ho => ⟨?_, fun k hk => ⟨?_, fun r hr => ?_⟩⟩⟩
  · rw [List.eq_of_mem_replicate ho]; simp [zeros3]
  · rw [List.eq_of_mem_replicate ho] at hk
    rw [List.eq_of_mem_replicate hk]; simp [zeros2]
  · rw [List.eq_of_mem_replicate ho] at hk
    rw [List.eq_of_mem_replicate hk] at hr
    rw [List.eq_of_mem_replicate hr]; simp [zeros1]

theorem zeros1_length (n : ℕ) : (zeros1 n).length = n := by
  simp [zeros1]

theorem zeroParams_initShapes (n : ℕ) : RetinaCNN.initShapes n (zeroParams n) :=
  ⟨zeros4_dims 32 3 3 3, zeros1_length 32, zeros4_dims 64 32 3 3, zeros1_length 64,
    zeros4_dims 128 64 3 3, zeros1_length 128, zeros2_dims 256 (128 * 28 * 28),
    zeros1_length 256, zeros2_dims n 256, zeros1_length n⟩

/-- C6: for every input tensor, `RetinaCNN.forward` with parameters of the
`__init__(num_classes = N)` shapes produces a logits vector of length exactly
`N`; no dimension depends on the content of `x`. -/
theorem forward_logits_length (N : ℕ) (p : RetinaCNNParams) (x : Tensor3)
    (h : RetinaCNN.initShapes N p) :
    (RetinaCNN.forward p x).length = N := by
  obtain ⟨-, -, -, -, -, -, -, -, hw, hb⟩ := h
  simp [RetinaCNN.forward, linear_length, hw.1, hb]

/-- C6 witness: concrete zero parameters of the four-class architecture give a
logits vector of length 4 on a 3×224×224 input. -/
theorem forward_logits_length_witness :
    RetinaCNN.initShapes 4 (zeroParams 4) ∧
    (RetinaCNN.forward (zeroParams 4) (zeros3 3 224 224)).length = 4 :=
  ⟨zeroParams_initShapes 4, forward_logits_length 4 (zeroParams 4) (zeros3 3 224 224) (zeroParams_initShapes 4)⟩

theorem listMax_ge : ∀ (l : List ℚ), ∀ j < l.length, l.getD j 0 ≤ listMax l
  | [], j, hj => by simp at hj
  | [a], j, hj => by
      have : j = 0 := by simpa using hj
      simp [this, listMax]
  | a :: b :: r, j, hj => by
      match j with
      | 0 => simp [listMax]
      | j + 1 =>
        have ih := listMax_ge (b :: r) j (by simpa using hj)
        rw [List.getD_cons_succ]
        exact le_trans ih (by simp [listMax])

theorem argmax_lt_length : ∀ (l : List ℚ), l ≠ [] → argmaxIdx l < l.length
  | [a], _ => by simp [argmaxIdx]
  | a :: b :: r, _ => by
      simp only [argmaxIdx]
      split
      · simp
      · have := argmax_lt_length (b :: r) (by simp)
        simpa using Nat.succ_lt_succ this

theorem getD_argmax : ∀ (l : List ℚ), l ≠ [] → l.getD (argmaxIdx l) 0 = listMax l
  | [a], _ => by simp [argmaxIdx, listMax]
  | a :: b :: r, _ => by
      simp only [argmaxIdx, listMax]
      split
      · next h => simp [max_eq_left h]
      · next h =>
        push_neg at h
        rw [List.getD_cons_succ, getD_argmax (b :: r) (by simp), max_eq_right (le_of_lt h)]

theorem argmax_first : ∀ (l : List ℚ), ∀ j < argmaxIdx l, l.getD j 0 < listMax l
  | [], j, hj => by simp [argmaxIdx] at hj
  | [a], j, hj => by simp [argmaxIdx] at hj
  | a :: b :: r, j, hj => by
      simp only [argmaxIdx] at hj
      split at hj
      · omega
      · next h =>
        push_neg at h
        match j with
        | 0 =>
          have : listMax (a :: b :: r) = listMax (b :: r) := by
            simp [listMax, max_eq_right (le_of_lt h)]
          rw [this, List.getD_cons_zero]
          exact h
        | j + 1 =>
          have ih := argmax_first (b :: r) j (by omega)
          rw [List.getD_cons_succ]
          exact lt_of_lt_of_le ih (by simp [listMax])

theorem idxLe_trans (probs : List ℚ) :
    ∀ a b c : ℕ, idxLe probs a b → idxLe probs b c → idxLe probs a c := by
  intro a b c hab hbc
  simp only [idxLe, decide_eq_true_eq] at *
  rcases hab with h1 | ⟨e1, le1⟩ <;> rcases hbc with h2 | ⟨e2, le2⟩
  · exact Or.inl (lt_trans h2 h1)
  · exact Or.inl (e2 ▸ h1)
  · exact Or.inl (e1 ▸ h2)
  · exact Or.inr ⟨e1.trans e2, le1.trans le2⟩

theorem idxLe_total (probs : List ℚ) :
    ∀ a b : ℕ, idxLe probs a b || idxLe probs b a := by
  intro a b
  rw [Bool.or_eq_true]
  simp only [idxLe, decide_eq_true_eq]
  rcases lt_trichotomy (probs.getD a 0) (probs.getD b 0) with h | h | h
  · exact Or.inr (Or.inl h)
  · rcases Nat.le_total a b with hab | hba
    · exact Or.inl (Or.inr ⟨h, hab⟩)
    · exact Or.inr (Or.inr ⟨h.symm, hba⟩)
  · exact Or.inl (Or.inl h)

theorem idxLe_antisymm (probs : List ℚ) (i j : ℕ)
    (hij : idxLe probs i j = true) (hji : idxLe probs j i = true) : i = j := by
  simp only [idxLe, decide_eq_true_eq] at hij hji
  rcases hij with h1 | ⟨e1, le1⟩ <;> rcases hji with h2 | ⟨e2, le2⟩
  · exact absurd (lt_trans h1 h2) (lt_irrefl _)
  · exact absurd (e2 ▸ h1) (lt_irrefl _)
  · exact absurd (e1 ▸ h2) (lt_irrefl _)
  · omega

theorem idxLe_argmax (probs : List ℚ) (hne : probs ≠ []) :
    ∀ j < probs.length, idxLe probs (argmaxIdx probs) j = true := by
  intro j hj
  simp only [idxLe, decide_eq_true_eq]
  rw [getD_argmax probs hne]
  rcases lt_or_eq_of_le (listMax_ge probs j hj) with h | h
  · exact Or.inl h
  · refine Or.inr ⟨h.symm, ?_⟩
    by_contra hlt
    push_neg at hlt
    exact absurd (h ▸ argmax_first probs j hlt) (lt_irrefl _)

theorem topKIdx_sorted (probs : List ℚ) (k : ℕ) :
    List.Pairwise (fun i j => idxLe probs i j = true) (topKIdx probs k) := by
  have hs := @List.sorted_mergeSort ℕ (idxLe probs) (idxLe_trans probs) (idxLe_total probs)
    (List.range probs.length)
  exact List.Pairwise.sublist (List.take_sublist _ _) hs

theorem topKIdx_length (probs : List ℚ) (k : ℕ) :
    (topKIdx probs k).length = min k probs.length := by
  simp [topKIdx]

theorem topKIdx_head (probs : List ℚ) (k : ℕ) (hne : probs ≠ []) (hk : k ≠ 0) :
    (topKIdx probs k).head? = some (argmaxIdx probs) := by
  have hn : 0 < probs.length := List.length_pos.2 hne
  set s := (List.range probs.length).mergeSort (idxLe probs) with hsdef
  have hlen : s.length = probs.length := by simp [hsdef]
  have hsne : s ≠ [] := by
    intro h
    rw [h] at hlen
    simp at hlen
    omega
  obtain ⟨h0, t, hst⟩ := List.exists_cons_of_ne_nil hsne
  have hsorted := @List.sorted_mergeSort ℕ (idxLe probs) (idxLe_trans probs)
    (idxLe_total probs) (List.range probs.length)
  rw [← hsdef, hst, List.pairwise_cons] at hsorted
  have hmem : ∀ x ∈ s, x ∈ List.range probs.length := by
    intro x hx
    rw [hsdef] at hx
    exact (List.mem_mergeSort).1 hx
  have hargmem : argmaxIdx probs ∈ s := by
    rw [hsdef, List.mem_mergeSort]
    exact List.mem_range.2 (argmax_lt_length probs hne)
  have h0lt : h0 < probs.length := by
    have := hmem h0 (by rw [hst]; exact List.mem_cons_self _ _)
    exact List.mem_range.1 this
  have h0eq : h0 = argmaxIdx probs := by
    rw [hst] at hargmem
    rcases List.mem_cons.1 hargmem with h | h
    · exact h.symm
    · exact idxLe_antisymm probs h0 (argmaxIdx probs) (hsorted.1 _ h)
        (idxLe_argmax probs hne h0 h0lt)
  obtain ⟨m, hm⟩ := Nat.exists_eq_succ_of_ne_zero hk
  rw [topKIdx, ← hsdef, hst, hm, List.take_succ_cons, List.head?_cons, h0eq]

/-- C1: the confidence gate of `main.py`. For every softmax probability
vector, when the arg-max probability is strictly below 0.65 the reported
label is the sentinel "uncertain" and the message is the explanatory one;
when it is at least 0.65 (the boundary passes) the reported label is the true
arg-max class label and the message states the label and the rounded
percentage confidence. The two concrete instances exercise the boundary:
top value exactly 0.65 passes, top value 0.6499 is gated. -/
theorem confidence_gate_policy (classNames : List String) (probs : List ℚ)
    (fn ts : String) :
    (probs.getD (argmaxIdx probs) 0 < confidenceThreshold →
      (mainPredict classNames probs fn ts).prediction = "uncertain" ∧
      (mainPredict classNames probs fn ts).message = uncertainMessage) ∧
    (confidenceThreshold ≤ probs.getD (argmaxIdx probs) 0 →
      (mainPredict classNames probs fn ts).prediction
          = classNames.getD (argmaxIdx probs) "" ∧
      (mainPredict classNames probs fn ts).message
          = detectedMessage (classNames.getD (argmaxIdx probs) "")
              (pyRound (probs.getD (argmaxIdx probs) 0 * 100) 2)) ∧
    (mainPredict ["a", "b"] [13 / 20, 7 / 20] fn ts).prediction = "a" ∧
    (mainPredict ["a", "b"] [6499 / 10000, 3501 / 10000] fn ts).prediction
        = "uncertain" ∧
    (mainPredict ["a", "b"] [6499 / 10000, 3501 / 10000] fn ts).message
        = uncertainMessage := by
  refine ⟨fun h => ?_, fun h => ?_, ?_, ?_, ?_⟩
  · rw [mainPredict, if_pos h]
    exact ⟨rfl, rfl⟩
  · rw [mainPredict, if_neg (not_lt.2 h)]
    exact ⟨rfl, rfl⟩
  · norm_num [mainPredict, argmaxIdx, listMax, confidenceThreshold]
  · norm_num [mainPredict, argmaxIdx, listMax, confidenceThreshold]
  · norm_num [mainPredict, argmaxIdx, listMax, confidenceThreshold, uncertainMessage]

/-- C2: the top-k list of `main.py`, for probability vectors whose length
matches the registry (the model output width always does). Its field of the
result equals the top-k pairing regardless of the confidence gate (so it
always carries the true class labels), its length is `min 3 N`, it is
ordered by descending probability with ties broken by ascending class index,
and for a nonempty probability vector its first entry is the arg-max class
of the full vector with its true label. -/
theorem topk_spec (classNames : List String) (probs : List ℚ) (fn ts : String)
    (hlen : probs.length = classNames.length) :
    (mainPredict classNames probs fn ts).topPredictions = topKPairs classNames probs ∧
    (topKPairs classNames probs).length = min 3 probs.length ∧
    List.Pairwise (fun i j => idxLe probs i j = true)
      (topKIdx probs (min 3 classNames.length)) ∧
    (probs ≠ [] →
      (topKIdx probs (min 3 classNames.length)).head? = some (argmaxIdx probs) ∧
      (topKPairs classNames probs).head?
          = some (classNames.getD (argmaxIdx probs) "",
              probs.getD (argmaxIdx probs) 0)) := by
  have hhead : probs ≠ [] →
      (topKIdx probs (min 3 classNames.length)).head? = some (argmaxIdx probs) := by
    intro h
    have hn : 0 < probs.length := List.length_pos.2 h
    exact topKIdx_head probs _ h (by omega)
  refine ⟨?_, ?_, topKIdx_sorted probs _, fun h => ⟨hhead h, ?_⟩⟩
  · rw [mainPredict]
    split <;> rfl
  · rw [topKPairs, List.length_map, topKIdx_length, hlen, min_assoc, min_self]
  · rw [topKPairs, List.head?_map, hhead h]
    rfl

/-- C2 witness: the top-k properties at a concrete one-class distribution. -/
theorem topk_spec_witness :
    ([(1 : ℚ)].length = (["a"] : List String).length) ∧
    ((mainPredict ["a"] [(1 : ℚ)] "f" "t").topPredictions = topKPairs ["a"] [(1 : ℚ)] ∧
     (topKPairs ["a"] [(1 : ℚ)]).length = min 3 [(1 : ℚ)].length ∧
     List.Pairwise (fun i j => idxLe [(1 : ℚ)] i j = true)
       (topKIdx [(1 : ℚ)] (min 3 (["a"] : List String).length)) ∧
     ([(1 : ℚ)] ≠ [] →
       (topKIdx [(1 : ℚ)] (min 3 (["a"] : List String).length)).head?
           = some (argmaxIdx [(1 : ℚ)]) ∧
       (topKPairs ["a"] [(1 : ℚ)]).head?
           = some ((["a"] : List String).getD (argmaxIdx [(1 : ℚ)]) "",
               [(1 : ℚ)].getD (argmaxIdx [(1 : ℚ)]) 0))) :=
  ⟨rfl, topk_spec ["a"] [(1 : ℚ)] "f" "t" rfl⟩

theorem strLe_trans : ∀ a b c : String, strLe a b → strLe b c → strLe a c := by
  intro a b c hab hbc
  simp only [strLe, decide_eq_true_eq] at *
  exact le_trans hab hbc

theorem strLe_total : ∀ a b : String, strLe a b || strLe b a := by
  intro a b
  rw [Bool.or_eq_true]
  simp only [strLe, decide_eq_true_eq]
  exact le_total a b

theorem sorted_strLe (l : List String) : List.Sorted (fun a b => a ≤ b) (l.mergeSort strLe) := by
  have h := @List.sorted_mergeSort String strLe strLe_trans strLe_total l
  exact h.imp (by simp [strLe])

/-- C5: when the dataset directory exists the registry is exactly its
immediate subdirectory names sorted lexicographically (a sorted permutation
of them, hence unique); when it is absent it is the fixed 4-label default
list. The concrete instance is the sort of
["normal", "cataract", "glaucoma", "dr"]. -/
theorem class_registry_build (subdirs : List String) :
    List.Sorted (fun a b => a ≤ b) (buildClassNames (some subdirs)) ∧
    (buildClassNames (some subdirs)).Perm subdirs ∧
    buildClassNames none = defaultClassNames ∧
    buildClassNames (some ["normal", "cataract", "glaucoma", "dr"])
        = ["cataract", "dr", "glaucoma", "normal"] := by
  refine ⟨sorted_strLe subdirs, List.mergeSort_perm subdirs strLe, rfl, ?_⟩
  show List.mergeSort _ strLe = _
  refine List.eq_of_perm_of_sorted ?_ (sorted_strLe _) ?_
  · exact (List.mergeSort_perm _ _).trans (by decide)
  · have h1 : ("cataract" : String) ≤ "dr" := by rw [String.le_iff_toList_le]; decide
    have h2 : ("dr" : String) ≤ "glaucoma" := by rw [String.le_iff_toList_le]; decide
    have h3 : ("glaucoma" : String) ≤ "normal" := by rw [String.le_iff_toList_le]; decide
    simp only [List.sorted_cons, List.mem_cons, List.not_mem_nil, or_false]
    refine ⟨fun b hb => ?_, fun b hb => ?_, fun b hb => ?_, by simp⟩
    · rcases hb with rfl | rfl | rfl
      · exact h1
      · exact le_trans h1 h2
      · exact le_trans h1 (le_trans h2 h3)
    · rcases hb with rfl | rfl
      · exact h2
      · exact le_trans h2 h3
    · rcases hb with rfl
      exact h3

/-- C4 counterexample: when the dataset directory exists but contains no
subdirectory, registry construction does not fail: it silently produces the
empty registry. -/
theorem class_registry_empty_counterexample :
    buildClassNames (some []) = [] ∧ (buildClassNames (some [])).length = 0 := by
  constructor <;> simp [buildClassNames]

/-- C4 amended: registry construction never fails; the registry built from an
existing directory is empty exactly when the directory has no subdirectory,
and only the absent-directory fallback is guaranteed nonempty (its 4 fixed
labels). -/
theorem class_registry_empty_amended :
    buildClassNames (some []) = [] ∧
    (∀ d : List String, buildClassNames (some d) = [] ↔ d = []) ∧
    buildClassNames none = defaultClassNames ∧
    (buildClassNames none).length = 4 := by
  refine ⟨by simp [buildClassNames], fun d => ?_, rfl, rfl⟩
  constructor
  · intro h
    have hp := List.mergeSort_perm d strLe
    rw [buildClassNames] at h
    rw [h] at hp
    exact (hp.symm).eq_nil
  · intro h
    simp [buildClassNames, h]

/-- C8: `predict` in eval mode is deterministic: with the same loaded
parameters and the same preprocessed tensor (hence the same logits from
`RetinaCNN.forward`, dropout being disabled, and the same probability vector
under any fixed softmax evaluation `g` of the numeric runtime), two calls
agree on the prediction label, the confidence and the top-k list; only the
timestamps differ. -/
theorem predict_deterministic (g : List ℚ → List ℚ) (p : RetinaCNNParams)
    (x : Tensor3) (classNames : List String) (fn ts1 ts2 : String) :
    (mainPredict classNames (g (RetinaCNN.forward p x)) fn ts1).prediction
        = (mainPredict classNames (g (RetinaCNN.forward p x)) fn ts2).prediction ∧
    (mainPredict classNames (g (RetinaCNN.forward p x)) fn ts1).confidence
        = (mainPredict classNames (g (RetinaCNN.forward p x)) fn ts2).confidence ∧
    (mainPredict classNames (g (RetinaCNN.forward p x)) fn ts1).topPredictions
        = (mainPredict classNames (g (RetinaCNN.forward p x)) fn ts2).topPredictions ∧
    (mainPredict classNames (g (RetinaCNN.forward p x)) fn ts1).timestamp = ts1 ∧
    (mainPredict classNames (g (RetinaCNN.forward p x)) fn ts2).timestamp = ts2 := by
  simp only [mainPredict]
  split <;> exact ⟨rfl, rfl, rfl, rfl, rfl⟩

/-- C10: the `app.py` `/predict` endpoint applies no confidence gate: the
reported prediction is always the true arg-max class label (never the
"uncertain" sentinel as long as no class is so named), and the response
carries exactly the four fields filename, prediction, confidence and
timestamp, with no top-k list and no message. The concrete instance has top
probability 0.6 (below the `main.py` threshold): `main.py` reports
"uncertain" while `app.py` still reports the arg-max label. -/
theorem app_predict_no_gate (classNames : List String) (probs : List ℚ)
    (fn ts : String) :
    (appPredict classNames probs fn ts).prediction
        = classNames.getD (argmaxIdx probs) "" ∧
    ("uncertain" ∉ classNames →
      (appPredict classNames probs fn ts).prediction ≠ "uncertain") ∧
    (∀ r : AppPredictResult,
      r = { filename := r.filename, prediction := r.prediction,
            confidence := r.confidence, timestamp := r.timestamp }) ∧
    (appPredict ["a", "b"] [4 / 10, 6 / 10] fn ts).prediction = "b" ∧
    (mainPredict ["a", "b"] [4 / 10, 6 / 10] fn ts).prediction = "uncertain" := by
  refine ⟨rfl, fun hmem => ?_, fun r => rfl, ?_, ?_⟩
  · show classNames.getD (argmaxIdx probs) "" ≠ "uncertain"
    by_cases hlt : argmaxIdx probs < classNames.length
    · intro he
      have hm : classNames.getD (argmaxIdx probs) "" ∈ classNames := by
        rw [List.getD_eq_getElem?_getD, List.getElem?_eq_getElem hlt]
        exact List.getElem_mem hlt
      exact hmem (he ▸ hm)
    · rw [List.getD_eq_default _ _ (le_of_not_lt hlt)]
      intro he
      exact absurd he (by decide)
  · norm_num [appPredict, argmaxIdx, listMax]
  · norm_num [mainPredict, argmaxIdx, listMax, confidenceThreshold]

/-- C7: loading a checkpoint whose parameter shapes disagree anywhere with
the `RetinaCNN(len(CLASS_NAMES))` architecture (in particular a final-layer
width differing from the registry length) fails at load time, so the service
never reaches its ready state; and any successful load carries exactly the
architecture shapes, never a truncation or reshape. -/
theorem checkpoint_mismatch_fatal (classNames : List String)
    (ckpt : List (String × List ℕ)) (h : ckpt ≠ stateShapes classNames.length) :
    isErr (startService classNames ckpt) = true ∧
    (∀ ck2 loaded, startService classNames ck2 = Except.ok loaded →
      ck2 = stateShapes classNames.length ∧ loaded = stateShapes classNames.length) := by
  constructor
  · rw [startService, loadStateDict]
    by_cases hk : ckpt.map Prod.fst = (stateShapes classNames.length).map Prod.fst
    · rw [if_neg (by simp [hk]), if_pos h]
      rfl
    · rw [if_pos hk]
      rfl
  · intro ck2 loaded hok
    rw [startService, loadStateDict] at hok
    by_cases hk : ck2.map Prod.fst = (stateShapes classNames.length).map Prod.fst
    · rw [if_neg (by simp [hk])] at hok
      by_cases he : ck2 = stateShapes classNames.length
      · rw [if_neg (by simp [he])] at hok
        exact ⟨he, by injection hok with h2; exact h2 ▸ he⟩
      · rw [if_pos he] at hok
        exact absurd hok (by simp)
    · rw [if_pos hk] at hok
      exact absurd hok (by simp)

/-- C7 witness: a checkpoint trained with 3 output classes loaded into a
service whose registry has the 4 default labels is rejected at load time. -/
theorem checkpoint_mismatch_fatal_witness :
    stateShapes 3 ≠ stateShapes defaultClassNames.length ∧
    isErr (startService defaultClassNames (stateShapes 3)) = true :=
  ⟨by decide, (checkpoint_mismatch_fatal defaultClassNames (stateShapes 3) (by decide)).1⟩

theorem folderSamples_nil : ∀ (i : ℕ) (ds : List (String × List Tensor3)),
    (∀ d ∈ ds, d.2 = ([] : List Tensor3)) → folderSamples i ds = []
  | _, [], _ => rfl
  | i, (c, imgs) :: rest, h => by
      have h1 : imgs = [] := h (c, imgs) (List.mem_cons_self _ _)
      have h2 := folderSamples_nil (i + 1) rest (fun d hd => h d (List.mem_cons_of_mem _ hd))
      simp [folderSamples, h1, h2]

/-- C3: a run of the training script over an empty dataset fails at dataset
construction, with the configuration error, before the first epoch begins:
the pipeline returns the error and produces no epoch report and no
parameters. -/
theorem empty_dataset_fails {P : Type} (step : P → List (Tensor3 × ℕ) → P × ℚ × ℕ)
    (shuffle : ℕ → List (Tensor3 × ℕ) → List (Tensor3 × ℕ))
    (dirs : List (String × List Tensor3)) (epochs : ℕ) (p0 : P)
    (h : totalImages dirs = 0) :
    trainPipeline step shuffle dirs epochs p0
        = Except.error TrainError.configurationError := by
  have hall : ∀ d ∈ dirs, d.2 = ([] : List Tensor3) := by
    intro d hd
    have hz : d.2.length = 0 := by
      have := List.sum_eq_zero_iff.1 h
      exact this _ (List.mem_map_of_mem (fun e => e.2.length) hd)
    exact List.eq_nil_of_length_eq_zero hz
  have hs : folderSamples 0 (dirs.mergeSort (fun a b => strLe a.1 b.1)) = [] := by
    apply folderSamples_nil
    intro d hd
    exact hall d ((List.mem_mergeSort).1 hd)
  rw [trainPipeline, imageFolder]
  simp [hs]

/-- C3 witness: the empty dataset directory makes the pipeline fail with the
configuration error before any epoch of the requested 10 runs. -/
theorem empty_dataset_fails_witness :
    totalImages [] = 0 ∧
    trainPipeline (fun (p : Unit) _ => (p, 0, 0)) (fun _ s => s) [] 10 ()
        = Except.error TrainError.configurationError :=
  ⟨rfl, empty_dataset_fails (fun (p : Unit) _ => (p, 0, 0)) (fun _ s => s) [] 10 () rfl⟩

/-- C9: the softmax applied to any finite nonempty logits vector yields a
probability distribution: every entry lies in [0, 1] and the entries sum to
1, in particular within the 1e-5 tolerance. -/
theorem softmax_prob_dist (l : List ℝ) (h : l ≠ []) : isProbVec (softmax l) := by
  have hpos : 0 < (l.map Real.exp).sum := by
    apply List.sum_pos
    · intro x hx
      obtain ⟨y, -, rfl⟩ := List.mem_map.1 hx
      exact Real.exp_pos y
    · simpa using h
  constructor
  · intro q hq
    obtain ⟨x, hx, rfl⟩ := List.mem_map.1 hq
    refine ⟨by positivity, ?_⟩
    rw [div_le_one hpos]
    exact List.single_le_sum (fun y hy => le_of_lt (by
      obtain ⟨z, -, rfl⟩ := List.mem_map.1 hy
      exact Real.exp_pos z)) _ (List.mem_map_of_mem Real.exp hx)
  · have hsum : (softmax l).sum = 1 := by
      rw [softmax]
      have : (fun x => Real.exp x / (l.map Real.exp).sum)
          = fun x => Real.exp x * ((l.map Real.exp).sum)⁻¹ :=
        funext fun x => div_eq_mul_inv _ _
      rw [this, List.sum_map_mul_right, mul_inv_cancel₀ (ne_of_gt hpos)]
    rw [hsum]
    norm_num

/-- C9 witness: the softmax of the one-entry logits vector [0] is a
probability distribution. -/
theorem softmax_prob_dist_witness :
    ([(0 : ℝ)] ≠ []) ∧ isProbVec (softmax [(0 : ℝ)]) :=
  ⟨by simp, softmax_prob_dist [(0 : ℝ)] (by simp)⟩
